import Mathlib

/-!
Verification development for `MountainRangeThreaded.hpp`: a coordinated
looping threadpool (`CoordinatedLoopingThreadpool`), a threaded grid stepper
(`MountainRangeThreaded`) built on two such pools, and the environment
parsing helper `getenv_as_size_t`.

The external grid model (`MountainRangeSharedMem`: the fields `h`, `g`, the
clock `t`, and the per-section routines `ds_section`, `update_h_section`,
`update_g_section`, plus the partition helper `divided_cell_range`) is not
part of the translation unit; those pieces are modelled from the design
document and are marked as such in their doc comments.
-/

namespace MRT

/-! ## Environment parsing: `getenv_as_size_t` -/

/-- Result of `std::from_chars` on an unsigned 64-bit target: `ptrOffset` is
how many characters were consumed (the `ptr` return measured from the start
of the buffer), and `value` is `some v` exactly when the call succeeded and
wrote `v` into `result`; on `invalid_argument` (no digits) or
`result_out_of_range` (digit string exceeding `size_t`) the output variable
is left unmodified, modelled as `none`. -/
structure FromCharsResult where
  ptrOffset : Nat
  value : Option Nat
  deriving DecidableEq, Repr

/-- Numeric value of a list of decimal digit characters, most significant
first, as `std::from_chars` accumulates it. -/
def digitsVal (ds : List Char) : Nat :=
  ds.foldl (fun acc c => 10 * acc + (c.toNat - ('0').toNat)) 0

/-- Model of `std::from_chars(val, val+strlen(val), result)` with `result`
of type `size_t`: consume the maximal leading run of decimal digits; no
digits means `invalid_argument` with `ptr == val`; a value above
`SIZE_MAX = 2^64 - 1` means `result_out_of_range` with `ptr` past the run;
otherwise success. -/
def from_chars (s : List Char) : FromCharsResult :=
  let ds := s.takeWhile Char.isDigit
  if ds.length = 0 then ⟨0, none⟩
  else if digitsVal ds < 2 ^ 64 then ⟨ds.length, some (digitsVal ds)⟩
  else ⟨ds.length, none⟩

/-- Model of `getenv_as_size_t(key, default_value)`. `val` is what
`std::getenv` returned (`none` for an unset variable, otherwise the
NUL-terminated string as a character list); `default_value` defaults to `1`
at the single call site. The local `size_t result;` is declared
uninitialized; `uninit` stands for its indeterminate value, which is what
the function returns whenever `ptr == val + strlen(val)` holds but
`from_chars` never wrote `result`. -/
def getenv_as_size_t (val : Option (List Char)) (uninit : Nat)
    (default_value : Nat) : Nat :=
  match val with
  | none => default_value
  | some s =>
    let r := from_chars s
    if r.ptrOffset = s.length then r.value.getD uninit else default_value

/-- The format the surrounding comment in the source promises to accept:
`^[0-9]+$`, i.e. a nonempty string of decimal digits. -/
def matchesDigitFormat (s : List Char) : Bool :=
  !s.isEmpty && s.all Char.isDigit

/-! ## CoordinatedLoopingThreadpool -/

/-- Caller-visible state of one `CoordinatedLoopingThreadpool`:
the two counting semaphores (as their counter values), the `synced` flag,
whether `request_stop` has been issued on the workers, and the fixed worker
count `workers.size()`. -/
structure Pool where
  startSem : Nat
  finishSem : Nat
  synced : Bool
  stopRequested : Bool
  nworkers : Nat
  deriving DecidableEq, Repr

/-- Model of `trigger()`: `start_sem.release(workers.size()); synced = false;`. -/
def Pool.trigger (p : Pool) : Pool :=
  { p with startSem := p.startSem + p.nworkers, synced := false }

/-- Model of `sync()`: `if (synced) return;` then one `finish_sem.acquire()`
per worker, then `synced = true`. The blocking acquires are modelled as
subtraction; legal call sites (see `Reach`) guarantee the permits are
available. -/
def Pool.sync (p : Pool) : Pool :=
  if p.synced then p
  else { p with finishSem := p.finishSem - p.nworkers, synced := true }

/-- Combined effect of every worker completing one iteration of its loop
body: each of the `nworkers` threads consumes one `start_sem` permit, runs
the bound closure, and releases one `finish_sem` permit. -/
def Pool.workersComplete (p : Pool) : Pool :=
  { p with startSem := p.startSem - p.nworkers,
           finishSem := p.finishSem + p.nworkers }

/-- Model of the destructor body: `request_stop()` on every worker followed
by a single `trigger()` with no paired `sync()`. -/
def Pool.destruct (p : Pool) : Pool :=
  Pool.trigger { p with stopRequested := true }

/-- A freshly constructed pool with `n` workers: both semaphores at zero and
`synced{true}`. -/
def Pool.init (n : Nat) : Pool :=
  ⟨0, 0, true, false, n⟩

/-- States a live pool can reach under the documented usage discipline:
`trigger()` only when no iteration is outstanding (calling it twice without
an intervening `sync()` is a stated precondition violation), workers
complete only when their start permits exist, and `sync()` only when it
will not block (it is already synced, or every finish permit has been
released). -/
inductive Pool.Reach : Pool → Prop
  | init (n : Nat) : Pool.Reach (Pool.init n)
  | trig {p : Pool} : Pool.Reach p → p.synced = true → Pool.Reach p.trigger
  | comp {p : Pool} : Pool.Reach p → p.nworkers ≤ p.startSem →
      Pool.Reach p.workersComplete
  | syn {p : Pool} : Pool.Reach p →
      (p.synced = true ∨ p.nworkers ≤ p.finishSem) → Pool.Reach p.sync

/-- The loop a worker thread runs, folded over the finite schedule of wakeups
it receives: each list entry is the value of `token.stop_requested()`
observed immediately after that `start_sem.acquire()` returns. The record
counts how often the bound function was invoked and how often
`finish_sem.release()` ran, and whether the thread has exited its loop. -/
structure WorkerEffect where
  invocations : Nat
  finishIncrements : Nat
  exited : Bool
  deriving DecidableEq, Repr

/-- Run the worker loop over a wakeup schedule: wake, check the stop token
(exit immediately if it is set, touching nothing else), otherwise invoke
`F(arg)` once, release the finish semaphore once, and loop. -/
def workerLoop : List Bool → WorkerEffect
  | [] => ⟨0, 0, false⟩
  | stop :: rest =>
    if stop then ⟨0, 0, true⟩
    else
      let e := workerLoop rest
      ⟨e.invocations + 1, e.finishIncrements + 1, e.exited⟩

/-! ## The external grid model and `MountainRangeThreaded` -/

/-- Modelled from the spec: the external grid model (`MountainRangeSharedMem`,
absent from the translation unit) supplies per-cell routines. `metric h g i`
is the per-cell scalar that `ds_section` sums over a subrange; `hCell h g dt i`
is the new elevation value `update_h_section` writes at cell `i` given the
current fields and a time-step size; `gCell h i` is the gradient value
`update_g_section` writes at cell `i` from the current elevation field (it
may read neighbouring cells). The numeric `value_type` is modelled as `ℚ`. -/
structure GridModel where
  metric : (Nat → ℚ) → (Nat → ℚ) → Nat → ℚ
  hCell : (Nat → ℚ) → (Nat → ℚ) → ℚ → Nat → ℚ
  gCell : (Nat → ℚ) → Nat → ℚ

/-- Modelled from the spec: `divided_cell_range(S, tid, N)` — the partition
oracle. Balanced division of `[0, S)` into `N` contiguous half-open
subranges, remainder spread over the earliest indices: worker `i` gets
`[i*(S/N) + min i (S%N), (i+1)*(S/N) + min (i+1) (S%N))`. -/
def divided_cell_range (S tid N : Nat) : Nat × Nat :=
  (tid * (S / N) + min tid (S % N), (tid + 1) * (S / N) + min (tid + 1) (S % N))

/-- Modelled from the spec: `ds_section(first, last)` — the partial sum of
the per-cell metric over the subrange `[first, last)`. -/
def ds_section (G : GridModel) (hs gs : Nat → ℚ) (first last : Nat) : ℚ :=
  ∑ i ∈ Finset.Ico first last, G.metric hs gs i

/-- Whether cell `j` belongs to some worker's subrange when `[0, S)` is
divided among `N` workers. -/
def covered (S N j : Nat) : Bool :=
  (List.range N).any fun tid =>
    decide ((divided_cell_range S tid N).1 ≤ j ∧ j < (divided_cell_range S tid N).2)

/-- State of a `MountainRangeThreaded` object: the shared fields `h` and `g`
(cell-indexed, with `size = h.size()`), the simulation clock `t`, the shared
scalar `iter_time_step`, the atomic accumulator `ds_aggregator`, the worker
count `nthreads`, and two ghost counters recording how many trigger/sync
cycles have been run on each pool. -/
structure MRState where
  size : Nat
  h : Nat → ℚ
  g : Nat → ℚ
  t : ℚ
  iterTimeStep : ℚ
  dsAggregator : ℚ
  nthreads : Nat
  dsCycles : Nat
  stepCycles : Nat

/-- Effect of one `trigger_sync` cycle of the `ds_workers` pool: every
worker computes its partition and atomically adds its `ds_section` into the
accumulator, fenced by a barrier rendezvous before and after. Atomic
additions over `ℚ` commute, so any interleaving of the `N` contributions
produces this sum. -/
def ds_pool_run (G : GridModel) (m : MRState) : MRState :=
  { m with
    dsAggregator := m.dsAggregator +
      ∑ tid ∈ Finset.range m.nthreads,
        ds_section G m.h m.g (divided_cell_range m.size tid m.nthreads).1
          (divided_cell_range m.size tid m.nthreads).2,
    dsCycles := m.dsCycles + 1 }

/-- Effect of one `trigger_sync` cycle of the `step_workers` pool: after the
first barrier rendezvous every worker updates the elevation field over its
subrange from the pre-cycle fields and the published `iter_time_step`; the
second rendezvous makes the whole updated elevation field visible before
any worker writes its gradient subrange from it; a third rendezvous closes
the cycle. Subranges are disjoint, so the combined effect is pointwise. -/
def step_pool_run (G : GridModel) (m : MRState) : MRState :=
  let h' := fun j =>
    if covered m.size m.nthreads j then G.hCell m.h m.g m.iterTimeStep j else m.h j
  let g' := fun j =>
    if covered m.size m.nthreads j then G.gCell h' j else m.g j
  { m with h := h', g := g', stepCycles := m.stepCycles + 1 }

/-- Model of `MountainRangeThreaded::step(time_step)`: publish the time step
into `iter_time_step`, run one `trigger_sync` cycle of the update pool,
advance the clock `t` by the time step, and return the new clock value. -/
def step (G : GridModel) (m : MRState) (time_step : ℚ) : MRState × ℚ :=
  let m1 := { m with iterTimeStep := time_step }
  let m2 := step_pool_run G m1
  let m3 := { m2 with t := m2.t + time_step }
  (m3, m3.t)

/-- Model of `MountainRangeThreaded::dsteepness()`: reset `ds_aggregator` to
zero, run one `trigger_sync` cycle of the reduction pool, and return the
accumulator divided by the domain size. -/
def dsteepness (G : GridModel) (m : MRState) : MRState × ℚ :=
  let m1 := { m with dsAggregator := 0 }
  let m2 := ds_pool_run G m1
  (m2, m2.dsAggregator / (m2.size : ℚ))

/-- Model of the `MountainRangeThreaded` constructor: the base class hands
over the initial fields `h0`, `g0` and clock `t0`; both pools, the barriers
and the accumulator are set up, and the constructor body then performs the
bootstrap `step(0)`. (`iter_time_step` is not initialized before that call
assigns it; `ds_aggregator` is not read before `dsteepness` resets it; both
start at `0` here.) -/
def mkMountainRangeThreaded (G : GridModel) (S N : Nat)
    (h0 g0 : Nat → ℚ) (t0 : ℚ) : MRState :=
  (step G ⟨S, h0, g0, t0, 0, 0, N, 0, 0⟩ 0).1

/-- Model of `MountainRangeThreaded::step` iterated over a list of time
steps, first call first. -/
def stepTimes (G : GridModel) (m : MRState) : List ℚ → MRState
  | [] => m
  | dt :: rest => stepTimes G (step G m dt).1 rest

/-! ## Per-thread bodies: constructor closures vs. private helpers -/

/-- Sequential effect of one run of the closure installed into `ds_workers`
at construction, together with the number of `ds_barrier.arrive_and_wait()`
rendezvous it performs: rendezvous, add the section metric into the
accumulator, rendezvous. -/
def ds_worker_closure (G : GridModel) (m : MRState) (tid : Nat) : MRState × Nat :=
  let fl := divided_cell_range m.size tid m.nthreads
  ({ m with dsAggregator := m.dsAggregator + ds_section G m.h m.g fl.1 fl.2 }, 2)

/-- Sequential effect of the private helper `ds_this_thread(tid)`, with its
rendezvous count: add the section metric into the accumulator, then one
`ds_barrier.arrive_and_wait()`. -/
def ds_this_thread (G : GridModel) (m : MRState) (tid : Nat) : MRState × Nat :=
  let fl := divided_cell_range m.size tid m.nthreads
  ({ m with dsAggregator := m.dsAggregator + ds_section G m.h m.g fl.1 fl.2 }, 1)

/-- Sequential effect of one run of the closure installed into
`step_workers` at construction, with its `step_barrier.arrive_and_wait()`
count: rendezvous, update the elevation subrange with the published time
step, rendezvous, update the gradient subrange from the updated elevation,
rendezvous. -/
def step_worker_closure (G : GridModel) (m : MRState) (tid : Nat) : MRState × Nat :=
  let fl := divided_cell_range m.size tid m.nthreads
  let h' := fun j =>
    if fl.1 ≤ j ∧ j < fl.2 then G.hCell m.h m.g m.iterTimeStep j else m.h j
  let g' := fun j => if fl.1 ≤ j ∧ j < fl.2 then G.gCell h' j else m.g j
  ({ m with h := h', g := g' }, 3)

/-- Sequential effect of the private helper `step_this_thread(tid)`, with
its rendezvous count: update the elevation subrange with `iter_time_step`,
one `step_barrier.arrive_and_wait()`, update the gradient subrange. -/
def step_this_thread (G : GridModel) (m : MRState) (tid : Nat) : MRState × Nat :=
  let fl := divided_cell_range m.size tid m.nthreads
  let h' := fun j =>
    if fl.1 ≤ j ∧ j < fl.2 then G.hCell m.h m.g m.iterTimeStep j else m.h j
  let g' := fun j => if fl.1 ≤ j ∧ j < fl.2 then G.gCell h' j else m.g j
  ({ m with h := h', g := g' }, 1)

/-! ## Concrete instances used by witnesses and counterexamples -/

/-- A concrete grid model: the metric reads the elevation cell, the
elevation update is an explicit Euler step `h[i] += dt * g[i]`, and the
gradient is a forward difference of the elevation field. -/
def exampleGrid : GridModel :=
  ⟨fun hs _ i => hs i, fun hs gs dt i => hs i + dt * gs i,
   fun hs i => hs (i + 1) - hs i⟩

/-- A concrete single-worker state over a two-cell domain. -/
def exampleState : MRState :=
  ⟨2, fun i => (i : ℚ), fun _ => 0, 0, 0, 0, 1, 0, 0⟩

/-! ## Partition lemmas -/

/-- Left endpoint of worker `i`'s subrange; `divided_cell_range S i N` is
`(sectionStart S N i, sectionStart S N (i+1))`. -/
def sectionStart (S N i : Nat) : Nat :=
  i * (S / N) + min i (S % N)

lemma divided_cell_range_eq (S tid N : Nat) :
    divided_cell_range S tid N = (sectionStart S N tid, sectionStart S N (tid + 1)) :=
  rfl

lemma sectionStart_zero (S N : Nat) : sectionStart S N 0 = 0 := by
  simp [sectionStart]

lemma sectionStart_top (S N : Nat) (hN : 1 ≤ N) : sectionStart S N N = S := by
  unfold sectionStart
  rw [min_eq_right (le_of_lt (Nat.mod_lt _ hN))]
  exact Nat.div_add_mod S N

lemma exists_between (f : Nat → Nat) :
    ∀ N j, f 0 ≤ j → j < f N → ∃ i, i < N ∧ f i ≤ j ∧ j < f (i + 1) := by
  intro N
  induction N with
  | zero => intro j h0 hlt; omega
  | succ n ih =>
    intro j h0 hlt
    by_cases hc : j < f n
    · obtain ⟨i, hi, h1, h2⟩ := ih j h0 hc
      exact ⟨i, Nat.lt_succ_of_lt hi, h1, h2⟩
    · exact ⟨n, Nat.lt_succ_self n, le_of_not_lt hc, hlt⟩

lemma covered_eq_true (S N j : Nat) (hN : 1 ≤ N) (hj : j < S) :
    covered S N j = true := by
  obtain ⟨i, hiN, h1, h2⟩ :=
    exists_between (sectionStart S N) N j
      (by rw [sectionStart_zero]; exact Nat.zero_le j)
      (by rw [sectionStart_top S N hN]; exact hj)
  unfold covered
  rw [List.any_eq_true]
  refine ⟨i, List.mem_range.mpr hiN, decide_eq_true ?_⟩
  rw [divided_cell_range_eq]
  exact ⟨h1, h2⟩

lemma divided_cell_range_one (S : Nat) : divided_cell_range S 0 1 = (0, S) := by
  simp [divided_cell_range, Nat.div_one, Nat.mod_one]

/-! ## Threadpool lemmas and claim theorems -/

lemma Pool.reach_inv {p : Pool} (hp : p.Reach) :
    p.stopRequested = false ∧
    ((p.synced = true ∧ p.startSem = 0 ∧ p.finishSem = 0) ∨
     (p.synced = false ∧ p.startSem = p.nworkers ∧ p.finishSem = 0) ∨
     (p.synced = false ∧ p.startSem = 0 ∧ p.finishSem = p.nworkers)) := by
  induction hp with
  | init n => exact ⟨rfl, Or.inl ⟨rfl, rfl, rfl⟩⟩
  | trig hq hs ih =>
    rename_i q
    obtain ⟨hstop, hcase⟩ := ih
    rcases hcase with ⟨_, h1, h2⟩ | ⟨hns, _, _⟩ | ⟨hns, _, _⟩
    · exact ⟨hstop, Or.inr (Or.inl ⟨rfl, by simp [Pool.trigger, h1], by simp [Pool.trigger, h2]⟩)⟩
    · rw [hns] at hs; exact absurd hs (by simp)
    · rw [hns] at hs; exact absurd hs (by simp)
  | comp hq hle ih =>
    rename_i q
    obtain ⟨hstop, hcase⟩ := ih
    rcases hcase with ⟨hs, h1, h2⟩ | ⟨hns, h1, h2⟩ | ⟨hns, h1, h2⟩
    · have hn0 : q.nworkers = 0 := by omega
      exact ⟨hstop, Or.inl ⟨hs, by simp [Pool.workersComplete, h1, hn0], by simp [Pool.workersComplete, h2, hn0]⟩⟩
    · exact ⟨hstop, Or.inr (Or.inr ⟨hns, by simp [Pool.workersComplete, h1], by simp [Pool.workersComplete, h2]⟩)⟩
    · have hn0 : q.nworkers = 0 := by omega
      exact ⟨hstop, Or.inr (Or.inr ⟨hns, by simp [Pool.workersComplete, h1, hn0], by simp [Pool.workersComplete, h2, hn0]⟩)⟩
  | syn hq hor ih =>
    rename_i q
    obtain ⟨hstop, hcase⟩ := ih
    rcases hcase with ⟨hs, h1, h2⟩ | ⟨hns, h1, h2⟩ | ⟨hns, h1, h2⟩
    · refine ⟨by simp [Pool.sync, hs, hstop], Or.inl ⟨by simp [Pool.sync, hs], by simp [Pool.sync, hs, h1], by simp [Pool.sync, hs, h2]⟩⟩
    · have hn0 : q.nworkers = 0 := by
        rcases hor with hc | hc
        · rw [hns] at hc; exact absurd hc (by simp)
        · omega
      refine ⟨by simp [Pool.sync, hns, hstop], Or.inl ⟨by simp [Pool.sync, hns], by simp [Pool.sync, hns, h1, hn0], by simp [Pool.sync, hns, h2]⟩⟩
    · refine ⟨by simp [Pool.sync, hns, hstop], Or.inl ⟨by simp [Pool.sync, hns], by simp [Pool.sync, hns, h1], by simp [Pool.sync, hns, h2]⟩⟩

/-- C5: in every reachable state of a coordinated worker pool, the `synced`
flag is true exactly when no iteration is outstanding (both semaphore
counters are drained); `trigger()` clears the flag, a completed `sync()`
sets it, and a `sync()` on an already-synced pool is the identity — in
particular it consumes no finish-signal increments. -/
theorem pool_synced_iff_no_outstanding {p : Pool} (hp : p.Reach)
    (hn : 1 ≤ p.nworkers) :
    (p.synced = true ↔ p.startSem = 0 ∧ p.finishSem = 0) ∧
    p.trigger.synced = false ∧
    p.sync.synced = true ∧
    (p.synced = true → p.sync = p) := by
  obtain ⟨_, hcase⟩ := Pool.reach_inv hp
  refine ⟨?_, rfl, ?_, ?_⟩
  · rcases hcase with ⟨hs, h1, h2⟩ | ⟨hns, h1, h2⟩ | ⟨hns, h1, h2⟩
    · exact ⟨fun _ => ⟨h1, h2⟩, fun _ => hs⟩
    · rw [hns]; exact ⟨by simp, fun hz => by omega⟩
    · rw [hns]; exact ⟨by simp, fun hz => by omega⟩
  · unfold Pool.sync
    by_cases hs : p.synced <;> simp [hs]
  · intro hs; simp [Pool.sync, hs]

/-- C5 witness: instantiated at a freshly constructed single-worker pool. -/
theorem pool_synced_iff_no_outstanding_witness :
    ((Pool.init 1).synced = true ↔ (Pool.init 1).startSem = 0 ∧ (Pool.init 1).finishSem = 0) ∧
    (Pool.init 1).trigger.synced = false ∧
    (Pool.init 1).sync = Pool.init 1 := by
  have h := pool_synced_iff_no_outstanding (Pool.Reach.init 1) (by decide)
  exact ⟨h.1, h.2.1, h.2.2.2 rfl⟩

/-- C7: a worker that wakes from the start signal with cancellation
requested exits its loop at once — the bound function is not invoked and
the finish signal is not incremented; a worker that wakes without
cancellation invokes the bound function exactly once and increments the
finish signal exactly once before looping. -/
theorem worker_loop_cancellation (rest : List Bool) :
    workerLoop (true :: rest) = ⟨0, 0, true⟩ ∧
    workerLoop (false :: rest) =
      ⟨(workerLoop rest).invocations + 1,
       (workerLoop rest).finishIncrements + 1,
       (workerLoop rest).exited⟩ := by
  constructor <;> simp [workerLoop]

/-- C8: pool destruction sets the stop flag on every worker, performs
exactly one `trigger()` — releasing exactly `nworkers` start permits, one
per (possibly parked) worker — and performs no `sync()` (the finish counter
is untouched); a worker waking on its permit then observes the stop flag
and exits its loop with no further invocation, so every thread joins and
destruction completes. -/
theorem pool_destruct_completes (p : Pool) :
    p.destruct.stopRequested = true ∧
    p.destruct.startSem = p.startSem + p.nworkers ∧
    p.destruct.finishSem = p.finishSem ∧
    workerLoop [p.destruct.stopRequested] = ⟨0, 0, true⟩ := by
  refine ⟨rfl, rfl, rfl, ?_⟩
  simp [Pool.destruct, Pool.trigger, workerLoop]

/-- C1 (failing input): with the environment variable set to the empty
string — which does not match `^[0-9]+$` — `from_chars` consumes no
characters, so `ptr == val + strlen(val)` holds vacuously and the function
returns the uninitialized local `result` (here `7`) instead of the default
worker count `1`. -/
theorem getenv_empty_string_returns_uninitialized :
    matchesDigitFormat [] = false ∧
    getenv_as_size_t (some []) 7 1 = 7 ∧
    getenv_as_size_t (some []) 7 1 ≠ 1 := by
  refine ⟨rfl, rfl, ?_⟩
  decide

/-! ## Grid stepper claim theorems -/

/-- C2: `dsteepness()` resets the shared accumulator, runs exactly one
trigger/sync cycle of the reduction pool, and returns the accumulator
divided by the domain size; with a single worker the accumulator holds
exactly the sequential reduction of the per-cell metric over the whole
domain, so the return value is that sum divided by the domain size. -/
theorem dsteepness_single_worker_sequential (G : GridModel) (m : MRState)
    (h1 : m.nthreads = 1) :
    (dsteepness G m).1.dsAggregator = ∑ i ∈ Finset.range m.size, G.metric m.h m.g i ∧
    (dsteepness G m).1.dsCycles = m.dsCycles + 1 ∧
    (dsteepness G m).2 =
      (∑ i ∈ Finset.range m.size, G.metric m.h m.g i) / (m.size : ℚ) := by
  have hsum : (∑ tid ∈ Finset.range m.nthreads,
      ds_section G m.h m.g (divided_cell_range m.size tid m.nthreads).1
        (divided_cell_range m.size tid m.nthreads).2)
      = ∑ i ∈ Finset.range m.size, G.metric m.h m.g i := by
    rw [h1, Finset.sum_range_one, divided_cell_range_one, ds_section,
      ← Finset.range_eq_Ico]
  refine ⟨?_, rfl, ?_⟩
  · show (0 : ℚ) + (∑ tid ∈ Finset.range m.nthreads,
      ds_section G m.h m.g (divided_cell_range m.size tid m.nthreads).1
        (divided_cell_range m.size tid m.nthreads).2) = _
    rw [zero_add, hsum]
  · show ((0 : ℚ) + (∑ tid ∈ Finset.range m.nthreads,
      ds_section G m.h m.g (divided_cell_range m.size tid m.nthreads).1
        (divided_cell_range m.size tid m.nthreads).2)) / (m.size : ℚ) = _
    rw [zero_add, hsum]

/-- C2 witness: the single-worker theorem applied to the concrete two-cell
example state. -/
theorem dsteepness_single_worker_sequential_witness :
    (dsteepness exampleGrid exampleState).2 =
      (∑ i ∈ Finset.range exampleState.size,
        exampleGrid.metric exampleState.h exampleState.g i) /
        (exampleState.size : ℚ) :=
  (dsteepness_single_worker_sequential exampleGrid exampleState rfl).2.2

/-- C3: `step(time_step)` publishes the time step into the shared
`iter_time_step` scalar (the value the update-pool workers then consume),
runs exactly one trigger/sync cycle of the update pool, advances the clock
by exactly the time step, and returns the new clock value. -/
theorem step_publishes_and_advances_clock (G : GridModel) (m : MRState)
    (dt : ℚ) :
    (step G m dt).1.iterTimeStep = dt ∧
    (step G m dt).1.stepCycles = m.stepCycles + 1 ∧
    (step G m dt).1.t = m.t + dt ∧
    (step G m dt).2 = (step G m dt).1.t ∧
    (step G m dt).1.h = fun j =>
      if covered m.size m.nthreads j then G.hCell m.h m.g dt j else m.h j :=
  ⟨rfl, rfl, rfl, rfl, rfl⟩

/-- C6: iterating `step` over any finite list of time-step values advances
the simulation clock by exactly the sum of those values, for every state
and in particular for every worker count. -/
theorem stepTimes_clock_additive (G : GridModel) (m : MRState)
    (dts : List ℚ) :
    (stepTimes G m dts).t = m.t + dts.sum := by
  induction dts generalizing m with
  | nil => simp [stepTimes]
  | cons dt rest ih =>
    rw [stepTimes, ih, List.sum_cons]
    show m.t + dt + rest.sum = m.t + (dt + rest.sum)
    ring

/-- C4: immediately after construction — whose body performs the bootstrap
`step(0)` after both pools are built — the elevation field is unchanged, the
gradient field over the whole domain is what `update_g_section` produces
from the initial elevation field, and the simulation clock equals its value
before construction. The external grid model's elevation update is a no-op
at time step zero (`hzero`), as the design document's notion of a
"zero-length bootstrap step" presumes. -/
theorem construction_bootstraps_gradient (G : GridModel) (S N : Nat)
    (h0 g0 : Nat → ℚ) (t0 : ℚ) (hN : 1 ≤ N)
    (hzero : ∀ hs gs j, G.hCell hs gs 0 j = hs j) :
    (mkMountainRangeThreaded G S N h0 g0 t0).h = h0 ∧
    (∀ j, j < S → (mkMountainRangeThreaded G S N h0 g0 t0).g j = G.gCell h0 j) ∧
    (mkMountainRangeThreaded G S N h0 g0 t0).t = t0 := by
  have hh : (fun j => if covered S N j then G.hCell h0 g0 0 j else h0 j) = h0 := by
    funext j
    by_cases hc : covered S N j <;> simp [hc, hzero]
  refine ⟨?_, ?_, ?_⟩
  · show (fun j => if covered S N j then G.hCell h0 g0 0 j else h0 j) = h0
    exact hh
  · intro j hj
    show (if covered S N j
        then G.gCell (fun i => if covered S N i then G.hCell h0 g0 0 i else h0 i) j
        else g0 j) = G.gCell h0 j
    rw [covered_eq_true S N j hN hj, hh]
    simp
  · show t0 + 0 = t0
    exact add_zero t0

/-- C4 witness: the bootstrap theorem applied to the concrete grid model
(whose Euler elevation update is a no-op at time step zero) on a two-cell
single-worker domain with initial clock `5`. -/
theorem construction_bootstraps_gradient_witness :
    (mkMountainRangeThreaded exampleGrid 2 1 (fun i => (i : ℚ)) (fun _ => 0) 5).g 0 =
      exampleGrid.gCell (fun i => (i : ℚ)) 0 ∧
    (mkMountainRangeThreaded exampleGrid 2 1 (fun i => (i : ℚ)) (fun _ => 0) 5).t = 5 := by
  have h := construction_bootstraps_gradient exampleGrid 2 1
    (fun i => (i : ℚ)) (fun _ => 0) 5 (by decide) (fun hs gs j => by simp [exampleGrid])
  exact ⟨h.2.1 0 (by decide), h.2.2⟩

/-- C10: `dsteepness()` modifies only the shared accumulator (and the ghost
cycle counter): the elevation field, the gradient field, the clock, the
published time step, the domain size and the worker count are all
unchanged, and a repeated call on the unchanged grid returns the same
value. -/
theorem dsteepness_frame (G : GridModel) (m : MRState) :
    (dsteepness G m).1.h = m.h ∧
    (dsteepness G m).1.g = m.g ∧
    (dsteepness G m).1.t = m.t ∧
    (dsteepness G m).1.iterTimeStep = m.iterTimeStep ∧
    (dsteepness G m).1.size = m.size ∧
    (dsteepness G m).1.nthreads = m.nthreads ∧
    (dsteepness G m).1.stepCycles = m.stepCycles ∧
    (dsteepness G (dsteepness G m).1).2 = (dsteepness G m).2 :=
  ⟨rfl, rfl, rfl, rfl, rfl, rfl, rfl, rfl⟩

/-- C9 counterexample: the constructor-installed update closure performs
three barrier arrivals while `step_this_thread` performs one, so the
claimed "exactly one fewer barrier rendezvous" fails for the step pair. -/
theorem step_helper_rendezvous_counterexample :
    (step_worker_closure exampleGrid exampleState 0).2 = 3 ∧
    (step_this_thread exampleGrid exampleState 0).2 = 1 ∧
    (step_worker_closure exampleGrid exampleState 0).2 ≠
      (step_this_thread exampleGrid exampleState 0).2 + 1 := by
  refine ⟨rfl, rfl, ?_⟩
  intro hEq
  rw [show (step_worker_closure exampleGrid exampleState 0).2 = 3 from rfl,
    show (step_this_thread exampleGrid exampleState 0).2 = 1 from rfl] at hEq
  omega

/-- C9 (amended): the private helpers `ds_this_thread` and
`step_this_thread` have exactly the same sequential effect on the state as
the corresponding constructor-installed worker closures — same partition
computation, same accumulator and field mutations — but with fewer barrier
rendezvous: one arrival versus two for the reduction pair, one arrival
versus three for the step pair. -/
theorem dead_helpers_duplicate_closures (G : GridModel) (m : MRState)
    (tid : Nat) :
    (ds_worker_closure G m tid).1 = (ds_this_thread G m tid).1 ∧
    (ds_worker_closure G m tid).2 = 2 ∧
    (ds_this_thread G m tid).2 = 1 ∧
    (step_worker_closure G m tid).1 = (step_this_thread G m tid).1 ∧
    (step_worker_closure G m tid).2 = 3 ∧
    (step_this_thread G m tid).2 = 1 :=
  ⟨rfl, rfl, rfl, rfl, rfl, rfl⟩

end MRT
